import Mathlib

/-!
Shallow embedding of the patch-generation scripts of the `groove` repository.

Numbers are modelled exactly: Python floats are embedded as rationals (ℚ) and
Python ints as ℤ.  A Python function that can raise is embedded as an
`Option`-valued function, `none` standing for a raised exception.  The decoders
come from `assets-nodist/work/generate-patches.py` (namespace `Welsh`); the
companion generator `util/generate-kitchen-sink.py` is embedded in namespace
`KitchenSink`.

Python's numeric literal parsers `float` and `int` are embedded for plain
decimal literals (optional surrounding blanks, optional sign, digits with at
most one point); exponent forms and special tokens lie outside the audited
cell alphabet.  Case mapping (`str.lower`) is embedded on the ASCII letters,
the alphabet of the spreadsheet cells.
-/

namespace Welsh

/-- Numeric value of a list of decimal digit characters, most significant first. -/
def digitsToNat (l : List Char) : Nat :=
  l.foldl (fun a c => a * 10 + (c.toNat - 48)) 0

/-- Unsigned integer literal: nonempty, all digits. -/
def parseUNat (l : List Char) : Option Nat :=
  if l ≠ [] ∧ l.all (·.isDigit) then some (digitsToNat l) else none

/-- The whitespace stripping Python's numeric parsers apply to both ends. -/
def pyStripSpace (l : List Char) : List Char :=
  ((l.dropWhile (· = ' ')).reverse.dropWhile (· = ' ')).reverse

/-- Python `int(s)` on a decimal literal: blanks stripped, optional sign,
nonempty digit string. -/
def parseInt (s : String) : Option Int :=
  match pyStripSpace s.data with
  | '-' :: r => (parseUNat r).map (fun n => -(n : Int))
  | '+' :: r => (parseUNat r).map (fun n => (n : Int))
  | t => (parseUNat t).map (fun n => (n : Int))

/-- Unsigned float literal: `digits`, `digits.digits`, `digits.` or `.digits`. -/
def parseUFloat (l : List Char) : Option ℚ :=
  let ip := l.takeWhile (·.isDigit)
  match l.dropWhile (·.isDigit) with
  | [] => if ip = [] then none else some (digitsToNat ip : ℚ)
  | '.' :: frac =>
      if frac.all (·.isDigit) ∧ (ip ≠ [] ∨ frac ≠ []) then
        some ((digitsToNat ip : ℚ) + (digitsToNat frac : ℚ) / (10 : ℚ) ^ frac.length)
      else none
  | _ => none

/-- Python `float(s)` on a decimal literal. -/
def parseFloat (s : String) : Option ℚ :=
  match pyStripSpace s.data with
  | '-' :: r => (parseUFloat r).map (fun q => -q)
  | '+' :: r => parseUFloat r
  | t => parseUFloat t

/-- Python `s.rstrip(chars)`: remove every trailing character drawn from the set. -/
def pyRStrip (s : String) (chars : List Char) : String :=
  String.mk ((s.data.reverse.dropWhile (fun c => chars.contains c)).reverse)

/-- Python `s.startswith(p)`, character-wise. -/
def pyStartsWith (s p : String) : Bool :=
  p.data.isPrefixOf s.data

/-- Python `s[n:]`, character-wise. -/
def pyDrop (s : String) (n : Nat) : String :=
  String.mk (s.data.drop n)

/-- Python `str.lower` restricted to the ASCII alphabet of the cells: code
points 65–90 (`A`–`Z`) shift by 32 to their lowercase forms. -/
def pyLowerChar (c : Char) : Char :=
  if 65 ≤ c.toNat ∧ c.toNat ≤ 90 then Char.ofNat (c.toNat + 32) else c

/-- Python `s.lower()` (ASCII case mapping). -/
def pyLower (s : String) : String :=
  String.mk (s.data.map pyLowerChar)

/-- Python `s.replace(a, b)` for one-character patterns and replacements. -/
def pyReplaceChar (s : String) (a b : Char) : String :=
  String.mk (s.data.map (fun c => if c = a then b else c))

/-- Python `s.replace(a, "")` for a one-character pattern. -/
def pyDeleteChar (s : String) (a : Char) : String :=
  String.mk (s.data.filter (fun c => c ≠ a))

/-- `as_pct`: empty cell is 0.0, otherwise strip trailing `%` and divide by 100. -/
def as_pct (s : String) : Option ℚ :=
  if s = "" then some 0
  else (parseFloat (pyRStrip s ['%'])).map (fun q => q / 100)

/-- `as_cents`: empty cell is 0.0, otherwise strip trailing characters of
`" cents"` and parse as a float. -/
def as_cents (s : String) : Option ℚ :=
  if s = "" then some 0
  else parseFloat (pyRStrip s [' ', 'c', 'e', 'n', 't', 's'])

/-- `as_int`: empty cell is 0, otherwise drop thousands-separator commas and
parse as an integer. -/
def as_int (s : String) : Option Int :=
  if s = "" then some 0
  else parseInt (pyDeleteChar s ',')

/-- `as_bool`: `None` and the empty cell and case-insensitive `"false"` are
false; any other nonempty cell is truthy. -/
def as_bool (s : Option String) : Bool :=
  match s with
  | none => false
  | some s =>
    if s = "" then false
    else if pyLower s = "false" then false
    else true

/-- `as_float`: empty cell is 0, otherwise parse as a float. -/
def as_float (s : String) : Option ℚ :=
  if s = "" then some 0
  else parseFloat s

/-- `as_envelope`: empty cell is 0.0, the literal `max` resolves to the
caller-supplied ceiling (itself possibly `None`), any other cell parses as a
float. -/
def as_envelope (s : String) (what_is_max : Option ℚ) : Option (Option ℚ) :=
  if s = "" then some (some 0)
  else if s = "max" then some what_is_max
  else (parseFloat s).map some

/-- Tune variant: absolute note, the no-transposition marker `{'float': 1.0}`,
or an octave/semitone/cent offset triple. -/
inductive Tune where
  | note (n : Int)
  | noTranspose
  | osc (octave semi cent : Int)
  deriving DecidableEq, Repr

/-- `as_tune`: a nonempty note cell yields the note alone; otherwise the three
offset cells are decoded, all-zero collapsing to the no-transposition marker. -/
def as_tune (o s c n : String) : Option Tune :=
  if n ≠ "" then (parseInt n).map Tune.note
  else do
    let ov ← as_int o
    let sv ← as_int s
    let cv ← as_int c
    if ov = 0 ∧ sv = 0 ∧ cv = 0 then pure Tune.noTranspose
    else pure (Tune.osc ov sv cv)

/-- LFO depth variant: percentage, cent offset, or the absence marker `'none'`. -/
inductive Depth where
  | pct (v : ℚ)
  | cents (v : ℚ)
  | dnone
  deriving DecidableEq, Repr

/-- `as_depth`: absent inputs collapse to `'none'`; the irregular cell
`"10/17%"` is special-cased to `"10%"`; a nonzero percentage with zero cents
gives the percentage variant, a zero percentage with nonzero cents the cents
variant, anything else `'none'`. -/
def as_depth (p c : Option String) : Option Depth :=
  match p, c with
  | none, _ => some Depth.dnone
  | _, none => some Depth.dnone
  | some p, some c => do
    let p := if p = "10/17%" then "10%" else p
    let pv ← as_pct p
    let cv ← as_cents c
    if pv ≠ 0 ∧ cv = 0 then pure (Depth.pct pv)
    else if pv = 0 ∧ cv ≠ 0 then pure (Depth.cents cv)
    else pure Depth.dnone

/-- `as_kebab`: lowercase, spaces to hyphens, commas dropped, slashes to
hyphens. -/
def as_kebab (s : String) : String :=
  pyReplaceChar (pyDeleteChar (pyReplaceChar (pyLower s) ' ' '-') ',') '/' '-'

/-- The per-character action of `as_kebab`, used to reason about the
composition of its four passes: `none` means the character is dropped. -/
def kebabChar (c : Char) : Option Char :=
  let c1 := pyLowerChar c
  let c2 := if c1 = ' ' then '-' else c1
  if c2 = ',' then none else some (if c2 = '/' then '-' else c2)

/-- Waveform variant: pulse width with duty cycle, named identifier, or the
absence marker `'none'`. -/
inductive Waveform where
  | pulseWidth (duty : ℚ)
  | ident (s : String)
  | wnone
  deriving DecidableEq, Repr

/-- `as_waveform`: a cell starting with `PW` yields the pulse-width variant
from the slice `s[3:]` read as a percentage; the empty cell yields `'none'`;
anything else is normalized to identifier form. -/
def as_waveform (s : String) : Option Waveform :=
  if pyStartsWith s "PW" then (as_pct (pyDrop s 3)).map Waveform.pulseWidth
  else if s = "" then some Waveform.wnone
  else some (Waveform.ident (as_kebab s))

/-- Polyphony result: the multi-voice limit, a named mode, or Python's `None`
(the value returned when the cell parses as a non-positive integer). -/
inductive Polyphony where
  | multiLimit (n : Int)
  | named (s : String)
  | pynone
  deriving DecidableEq, Repr

/-- `as_polyphony`: a cell parsing as a positive integer gives the multi-voice
limit; a cell that fails integer parsing is normalized to a named mode; a cell
parsing as a non-positive integer falls off the end of the function and
returns `None`. -/
def as_polyphony (s : String) : Polyphony :=
  match parseInt s with
  | some n => if n > 0 then Polyphony.multiLimit n else Polyphony.pynone
  | none => Polyphony.named (as_kebab s)

/-- Routing: absence marker for the empty cell, else a normalized identifier. -/
inductive Routing where
  | rnone
  | ident (s : String)
  deriving DecidableEq, Repr

/-- `as_routing`: empty cell is `'none'`, else identifier form. -/
def as_routing (s : String) : Routing :=
  if s = "" then Routing.rnone
  else Routing.ident (as_kebab s)

/-- `as_glide`: the literal quoted cell `"moderate"` maps to 0.1, anything
else parses as a float. -/
def as_glide (s : String) : Option ℚ :=
  if s = "\"moderate\"" then some (1 / 10)
  else as_float s

/-- One oscillator descriptor of a patch. -/
structure Osc where
  waveform : Waveform
  tune : Tune
  mixPct : ℚ
  mixDb : ℚ
  deriving DecidableEq, Repr

/-- One filter descriptor: cutoff in Hz and as a unit fraction. -/
structure FilterType where
  cutoffHz : Int
  cutoffPct : ℚ
  deriving DecidableEq, Repr

/-- One ADSR envelope; decay and release may hold Python's `None` (the
amplitude release ceiling). -/
structure Envelope where
  attack : ℚ
  decay : Option ℚ
  sustain : ℚ
  release : Option ℚ
  deriving DecidableEq, Repr

/-- The LFO descriptor. -/
structure Lfo where
  routing : Routing
  waveform : Waveform
  frequency : ℚ
  depth : Depth
  deriving DecidableEq, Repr

/-- One assembled preset, the nested document built per row. -/
structure Patch where
  name : String
  oscillator1 : Osc
  oscillator2 : Osc
  oscillator2Track : Bool
  oscillator2Sync : Bool
  noise : ℚ
  lfo : Lfo
  glide : ℚ
  unison : Bool
  polyphony : Polyphony
  filterType24db : FilterType
  filterType12db : FilterType
  filterResonance : ℚ
  filterEnvelopeWeight : ℚ
  filterEnvelope : Envelope
  ampEnvelope : Envelope
  deriving DecidableEq, Repr

/-- The `oscillator-1` / `oscillator-2` sub-dictionaries: waveform, tune,
mix as a unit fraction and mix in decibels. -/
def mkOsc (wc oc sc cc nc mpc mdc : String) : Option Osc := do
  let w ← as_waveform wc
  let t ← as_tune oc sc cc nc
  let mp ← as_pct mpc
  let md ← as_float mdc
  pure (Osc.mk w t mp md)

/-- The `lfo` sub-dictionary: routing, waveform, frequency, depth. -/
def mkLfo (rc wc fc pc cc : String) : Option Lfo := do
  let w ← as_waveform wc
  let f ← as_float fc
  let d ← as_depth (some pc) (some cc)
  pure (Lfo.mk (as_routing rc) w f d)

/-- A `filter-type-*` sub-dictionary: cutoff in Hz and as a unit fraction. -/
def mkFilterType (hzc pctc : String) : Option FilterType := do
  let hz ← as_int hzc
  let pct ← as_pct pctc
  pure (FilterType.mk hz pct)

/-- A `*-envelope` sub-dictionary with the two `max` ceilings of its decay
and release stages. -/
def mkEnvelope (ac dc sc rc : String) (dmax rmax : Option ℚ) : Option Envelope := do
  let a ← as_float ac
  let d ← as_envelope dc dmax
  let s ← as_pct sc
  let r ← as_envelope rc rmax
  pure (Envelope.mk a d s r)

/-- The `patch = { ... }` dictionary of the row loop: every decoder applied to
its designated zero-based column.  A `none` result is a decoder exception,
which aborts the batch. -/
def mkPatch (row : List String) : Option Patch := do
  let cell := fun i => row.getD i ""
  let o1 ← mkOsc (cell 3) (cell 4) (cell 5) (cell 6) "" (cell 7) (cell 8)
  let o2 ← mkOsc (cell 9) (cell 11) (cell 12) (cell 13) (cell 10) (cell 14) (cell 15)
  let noise ← as_pct (cell 19)
  let lfo ← mkLfo (cell 20) (cell 21) (cell 22) (cell 23) (cell 24)
  let glide ← as_glide (cell 26)
  let f24 ← mkFilterType (cell 29) (cell 30)
  let f12 ← mkFilterType (cell 31) (cell 32)
  let reso ← as_pct (cell 33)
  let few ← as_pct (cell 34)
  let fenv ← mkEnvelope (cell 35) (cell 36) (cell 37) (cell 38) (some 0) (some 30)
  let aenv ← mkEnvelope (cell 39) (cell 40) (cell 41) (cell 42) (some 0) none
  pure (Patch.mk (as_kebab (cell 2)) o1 o2
    (as_bool (some (cell 16))) (as_bool (some (cell 17))) noise lfo glide
    (as_bool (some (cell 27))) (as_polyphony (cell 28)) f24 f12 reso few fenv aenv)

/-- Outcome of one iteration of the row loop: a silent skip, one assembled
patch handed to the writer, or a decoder exception that aborts the batch. -/
inductive RowResult where
  | skipped
  | patch (p : Patch)
  | error
  deriving DecidableEq, Repr

/-- One iteration of the row loop: annotation rows (leading cell starting with
`Exception`) and the hard-coded defective row id `103` in column 1 are
skipped before any decoding; every other row is assembled into a patch. -/
def processRow (row : List String) : RowResult :=
  if pyStartsWith (row.getD 0 "") "Exception" then RowResult.skipped
  else if row.getD 1 "" = "103" then RowResult.skipped
  else
    match mkPatch row with
    | some p => RowResult.patch p
    | none => RowResult.error

/-- A 43-cell row that is neither an annotation row nor the excluded row id,
whose oscillator-1 mix cell (column 7) holds text no float parser accepts. -/
def undecodableRow : List String :=
  List.replicate 7 "" ++ ["abc"] ++ List.replicate 35 ""

/-- The patch assembled from a row of empty cells. -/
def emptyPatch : Patch :=
  { name := ""
    oscillator1 := { waveform := Waveform.wnone, tune := Tune.noTranspose, mixPct := 0, mixDb := 0 }
    oscillator2 := { waveform := Waveform.wnone, tune := Tune.noTranspose, mixPct := 0, mixDb := 0 }
    oscillator2Track := false
    oscillator2Sync := false
    noise := 0
    lfo := { routing := Routing.rnone, waveform := Waveform.wnone, frequency := 0, depth := Depth.dnone }
    glide := 0
    unison := false
    polyphony := Polyphony.named ""
    filterType24db := { cutoffHz := 0, cutoffPct := 0 }
    filterType12db := { cutoffHz := 0, cutoffPct := 0 }
    filterResonance := 0
    filterEnvelopeWeight := 0
    filterEnvelope := { attack := 0, decay := some 0, sustain := 0, release := some 0 }
    ampEnvelope := { attack := 0, decay := some 0, sustain := 0, release := some 0 } }

end Welsh

namespace KitchenSink

/-- Python `int(q)` on a float: truncation toward zero. -/
def pyTrunc (q : ℚ) : Int :=
  if 0 ≤ q then Int.floor q else Int.ceil q

/-- `get_float_param`: returns `int(p * 100) / 100.0` for the cursor value `p`
and the updated module-level cursor, which advances by 0.01 and wraps back to
0.01 once it exceeds 0.9. -/
def get_float_param (float_param : ℚ) : ℚ × ℚ :=
  let p := float_param
  let fp := float_param + 1 / 100
  let fp := if fp > 9 / 10 then 1 / 100 else fp
  ((pyTrunc (p * 100) : ℚ) / 100, fp)

/-- The module-level cursor after `n` calls; it is initialized to 0.01. -/
def floatParamAfter : Nat → ℚ
  | 0 => 1 / 100
  | n + 1 => (get_float_param (floatParamAfter n)).2

end KitchenSink

namespace Welsh

theorem char_toNat_ofNat (n : Nat) (h : n.isValidChar) : (Char.ofNat n).toNat = n := by
  simp [Char.ofNat, h, Char.ofNatAux, Char.toNat, UInt32.toNat, BitVec.toNat_ofNatLt]

theorem pyLowerChar_idem (c : Char) : pyLowerChar (pyLowerChar c) = pyLowerChar c := by
  unfold pyLowerChar
  by_cases h : 65 ≤ c.toNat ∧ c.toNat ≤ 90
  · have hv : (Char.ofNat (c.toNat + 32)).toNat = c.toNat + 32 :=
      char_toNat_ofNat _ (Or.inl (by omega))
    rw [if_pos h, if_neg (by rw [hv]; omega)]
  · rw [if_neg h, if_neg h]

theorem kebab_list (l : List Char) :
    (((l.map pyLowerChar).map (fun c => if c = ' ' then '-' else c)).filter
        (fun c => c ≠ ',')).map (fun c => if c = '/' then '-' else c)
      = l.filterMap kebabChar := by
  induction l with
  | nil => rfl
  | cons x xs ih =>
    simp only [List.map_cons, List.filter_cons, List.filterMap_cons]
    by_cases h : (if pyLowerChar x = ' ' then '-' else pyLowerChar x) = ','
    · have hkx : kebabChar x = none := by
        simp only [kebabChar]
        rw [if_pos h]
      rw [if_neg (by simp [h]), hkx]
      exact ih
    · have hkx : kebabChar x = some (if (if pyLowerChar x = ' ' then '-'
          else pyLowerChar x) = '/' then '-' else if pyLowerChar x = ' ' then '-'
          else pyLowerChar x) := by
        simp only [kebabChar]
        rw [if_neg h]
      rw [if_pos (by simp [h]), List.map_cons, ih, hkx]

theorem as_kebab_data (s : String) :
    as_kebab s = String.mk (s.data.filterMap kebabChar) := by
  unfold as_kebab pyReplaceChar pyDeleteChar pyLower
  exact congrArg String.mk (kebab_list s.data)

theorem kebabChar_fixed (c d : Char) (h : kebabChar c = some d) : kebabChar d = some d := by
  simp only [kebabChar] at h
  by_cases h1 : pyLowerChar c = ' '
  · simp only [h1, if_pos rfl] at h
    rw [if_neg (by decide), if_neg (by decide)] at h
    cases h
    decide
  · simp only [if_neg h1] at h
    by_cases h2 : pyLowerChar c = ','
    · rw [if_pos h2] at h
      exact Option.noConfusion h
    · rw [if_neg h2] at h
      by_cases h3 : pyLowerChar c = '/'
      · rw [if_pos h3] at h
        cases h
        decide
      · rw [if_neg h3] at h
        cases h
        simp only [kebabChar, pyLowerChar_idem, if_neg h1, if_neg h2, if_neg h3]

/-- C9: the identifier normalizer `as_kebab` is idempotent — normalizing an
already-normalized identifier returns it unchanged. -/
theorem c9_as_kebab_idempotent (s : String) : as_kebab (as_kebab s) = as_kebab s := by
  simp only [as_kebab_data]
  refine congrArg String.mk ?_
  show (s.data.filterMap kebabChar).filterMap kebabChar = s.data.filterMap kebabChar
  rw [List.filterMap_filterMap]
  apply List.filterMap_congr
  intro x _
  cases hx : kebabChar x with
  | none => simp [hx]
  | some d => simp [hx, kebabChar_fixed x d hx]

theorem c9_as_kebab_idempotent_witness :
    as_kebab (as_kebab "Sine Wave") = as_kebab "Sine Wave" :=
  c9_as_kebab_idempotent "Sine Wave"

/-- C1: counterexample — the percentage cell `"10%"` decodes to the nonzero
unit fraction 1/10 and the cents cell `"5 cents"` to the nonzero value 5, yet
`as_depth` returns the absence marker `'none'`, not the percentage variant. -/
theorem c1_counterexample :
    as_pct "10%" = some (1/10) ∧ (1/10 : ℚ) ≠ 0 ∧
    as_cents "5 cents" = some 5 ∧ (5 : ℚ) ≠ 0 ∧
    as_depth (some "10%") (some "5 cents") = some Depth.dnone ∧
    Depth.dnone ≠ Depth.pct (1/10) := by
  refine ⟨?_, by norm_num, rfl, by norm_num, ?_, by simp⟩
  · rw [show as_pct "10%" = some ((10:ℚ)/100) from rfl]
    norm_num
  · rw [show as_depth (some "10%") (some "5 cents") =
      (if ¬(10:ℚ)/100 = 0 ∧ (5:ℚ) = 0 then some (Depth.pct ((10:ℚ)/100))
       else if (10:ℚ)/100 = 0 ∧ ¬(5:ℚ) = 0 then some (Depth.cents 5)
       else some Depth.dnone) from rfl]
    norm_num

/-- C1 (amended): when the percentage cell (after the `"10/17%"` special case)
and the cents cell both decode to nonzero values, `as_depth` returns the
absence marker `'none'`, dropping both values. -/
theorem c1_both_nonzero_absent (p c : String) (pv cv : ℚ)
    (hp : as_pct (if p = "10/17%" then "10%" else p) = some pv)
    (hc : as_cents c = some cv) (hpnz : pv ≠ 0) (hcnz : cv ≠ 0) :
    as_depth (some p) (some c) = some Depth.dnone := by
  simp only [as_depth, hp, hc, Option.bind_eq_bind, Option.some_bind]
  simp [hpnz, hcnz]

theorem c1_both_nonzero_absent_witness :
    as_depth (some "10%") (some "5 cents") = some Depth.dnone :=
  c1_both_nonzero_absent "10%" "5 cents" ((10:ℚ)/100) 5 rfl rfl (by norm_num) (by norm_num)

/-- C2: counterexample — the cell `"PW25%"` decodes to the pulse-width
variant with duty cycle 1/20 (the slice `s[3:]` is `"5%"`), not 1/4. -/
theorem c2_counterexample :
    as_waveform "PW25%" = some (Waveform.pulseWidth (1/20)) ∧ (1/20 : ℚ) ≠ 1/4 := by
  constructor
  · rw [show as_waveform "PW25%" = some (Waveform.pulseWidth ((5:ℚ)/100)) from rfl]
    norm_num
  · norm_num

/-- C2 (amended): a cell beginning with `PW` decodes to the pulse-width
variant whose duty cycle is the portion of the cell after its first three
characters read as a percentage (so `"PW 25%"` gives 1/4 while `"PW25%"`
gives 1/20); a nonempty cell not beginning with `PW` is normalized to
identifier form; the empty cell yields the absence marker. -/
theorem c2_waveform_decoding :
    (∀ s v, pyStartsWith s "PW" = true → as_pct (pyDrop s 3) = some v →
        as_waveform s = some (Waveform.pulseWidth v)) ∧
    as_waveform "PW 25%" = some (Waveform.pulseWidth (1/4)) ∧
    as_waveform "Sine Wave" = some (Waveform.ident "sine-wave") ∧
    (∀ s, pyStartsWith s "PW" = false → s ≠ "" →
        as_waveform s = some (Waveform.ident (as_kebab s))) ∧
    as_waveform "" = some Waveform.wnone := by
  refine ⟨fun s v hpw hv => ?_, ?_, rfl, fun s hpw hne => ?_, rfl⟩
  · simp [as_waveform, hpw, hv]
  · rw [show as_waveform "PW 25%" = some (Waveform.pulseWidth ((25:ℚ)/100)) from rfl]
    norm_num
  · simp [as_waveform, hpw, hne]

theorem c2_waveform_decoding_witness :
    as_waveform "PW 10%" = some (Waveform.pulseWidth ((10:ℚ)/100)) ∧
    as_waveform "Triangle" = some (Waveform.ident (as_kebab "Triangle")) :=
  ⟨c2_waveform_decoding.1 "PW 10%" ((10:ℚ)/100) rfl rfl,
   c2_waveform_decoding.2.2.2.1 "Triangle" rfl (by decide)⟩

/-- C3: counterexample — the cell `"0"` parses as the integer 0, which is not
positive, and `as_polyphony` returns Python's `None`, which is neither the
multi-voice-limit variant nor a named mode. -/
theorem c3_counterexample :
    parseInt "0" = some 0 ∧ as_polyphony "0" = Polyphony.pynone ∧
    Polyphony.pynone ≠ Polyphony.named (as_kebab "0") := by
  exact ⟨rfl, rfl, by simp⟩

/-- C3 (amended): `as_polyphony` returns the multi-voice-limit variant for a
cell parsing as a positive integer and the named-mode identifier for a cell
that fails integer parsing, but returns `None` for a cell parsing as a
non-positive integer, so it is not total over the two variants. -/
theorem c3_polyphony_cases (s : String) :
    (∀ n, parseInt s = some n → 0 < n → as_polyphony s = Polyphony.multiLimit n) ∧
    (parseInt s = none → as_polyphony s = Polyphony.named (as_kebab s)) ∧
    (∀ n, parseInt s = some n → n ≤ 0 → as_polyphony s = Polyphony.pynone) := by
  refine ⟨fun n h hpos => ?_, fun h => ?_, fun n h hle => ?_⟩
  · simp only [as_polyphony, h]
    simp [hpos]
  · simp only [as_polyphony, h]
  · simp only [as_polyphony, h]
    simp [show ¬ n > 0 by omega]

theorem c3_polyphony_cases_witness :
    as_polyphony "4" = Polyphony.multiLimit 4 ∧
    as_polyphony "mono" = Polyphony.named (as_kebab "mono") ∧
    as_polyphony "0" = Polyphony.pynone :=
  ⟨(c3_polyphony_cases "4").1 4 rfl (by norm_num),
   (c3_polyphony_cases "mono").2.1 rfl,
   (c3_polyphony_cases "0").2.2 0 rfl le_rfl⟩

theorem mkEnvelope_eq_some (ac dc sc rc : String) (dmax rmax : Option ℚ) (E : Envelope)
    (h : mkEnvelope ac dc sc rc dmax rmax = some E) :
    as_float ac = some E.attack ∧ as_envelope dc dmax = some E.decay ∧
    as_pct sc = some E.sustain ∧ as_envelope rc rmax = some E.release := by
  simp only [mkEnvelope, Option.bind_eq_bind, Option.bind_eq_some, Option.pure_def,
    Option.some.injEq] at h
  obtain ⟨a, ha, d, hd, s, hs, r, hr, hE⟩ := h
  subst hE
  exact ⟨ha, hd, hs, hr⟩

theorem mkOsc_eq_some (wc oc sc cc nc mpc mdc : String) (O : Osc)
    (h : mkOsc wc oc sc cc nc mpc mdc = some O) :
    as_waveform wc = some O.waveform ∧ as_tune oc sc cc nc = some O.tune ∧
    as_pct mpc = some O.mixPct ∧ as_float mdc = some O.mixDb := by
  simp only [mkOsc, Option.bind_eq_bind, Option.bind_eq_some, Option.pure_def,
    Option.some.injEq] at h
  obtain ⟨w, hw, t, ht, mp, hmp, md, hmd, hO⟩ := h
  subst hO
  exact ⟨hw, ht, hmp, hmd⟩

theorem mkFilterType_eq_some (hzc pctc : String) (F : FilterType)
    (h : mkFilterType hzc pctc = some F) :
    as_int hzc = some F.cutoffHz ∧ as_pct pctc = some F.cutoffPct := by
  simp only [mkFilterType, Option.bind_eq_bind, Option.bind_eq_some, Option.pure_def,
    Option.some.injEq] at h
  obtain ⟨hz, hhz, pct, hpct, hF⟩ := h
  subst hF
  exact ⟨hhz, hpct⟩

theorem mkPatch_parts (row : List String) (P : Patch) (h : mkPatch row = some P) :
    mkOsc (row.getD 3 "") (row.getD 4 "") (row.getD 5 "") (row.getD 6 "") ""
        (row.getD 7 "") (row.getD 8 "") = some P.oscillator1 ∧
    mkOsc (row.getD 9 "") (row.getD 11 "") (row.getD 12 "") (row.getD 13 "")
        (row.getD 10 "") (row.getD 14 "") (row.getD 15 "") = some P.oscillator2 ∧
    as_pct (row.getD 19 "") = some P.noise ∧
    mkLfo (row.getD 20 "") (row.getD 21 "") (row.getD 22 "") (row.getD 23 "")
        (row.getD 24 "") = some P.lfo ∧
    as_glide (row.getD 26 "") = some P.glide ∧
    mkFilterType (row.getD 29 "") (row.getD 30 "") = some P.filterType24db ∧
    mkFilterType (row.getD 31 "") (row.getD 32 "") = some P.filterType12db ∧
    as_pct (row.getD 33 "") = some P.filterResonance ∧
    as_pct (row.getD 34 "") = some P.filterEnvelopeWeight ∧
    mkEnvelope (row.getD 35 "") (row.getD 36 "") (row.getD 37 "") (row.getD 38 "")
        (some 0) (some 30) = some P.filterEnvelope ∧
    mkEnvelope (row.getD 39 "") (row.getD 40 "") (row.getD 41 "") (row.getD 42 "")
        (some 0) none = some P.ampEnvelope ∧
    P.name = as_kebab (row.getD 2 "") ∧
    P.polyphony = as_polyphony (row.getD 28 "") := by
  simp only [mkPatch, Option.bind_eq_bind, Option.bind_eq_some, Option.pure_def,
    Option.some.injEq] at h
  obtain ⟨o1, ho1, o2, ho2, ns, hns, lf, hlf, gl, hgl, f24, hf24, f12, hf12,
    rs, hrs, fw, hfw, fe, hfe, ae, hae, hP⟩ := h
  subst hP
  exact ⟨ho1, ho2, hns, hlf, hgl, hf24, hf12, hrs, hfw, hfe, hae, rfl, rfl⟩

/-- C4: counterexample — the cell `"200%"` decodes to the value 2, which is
not a unit fraction in the closed interval from 0 to 1. -/
theorem c4_counterexample : as_pct "200%" = some 2 ∧ ¬ ((2:ℚ) ≤ 1) := by
  constructor
  · rw [show as_pct "200%" = some ((200:ℚ)/100) from rfl]
    norm_num
  · norm_num

/-- C4 (amended): `as_pct` divides the parsed number by 100 without clamping,
so its result lies in the closed unit interval exactly when the numeric part
of the cell lies between 0 and 100; the percentage-typed patch fields are
`as_pct` outputs of their designated cells and inherit that characterization. -/
theorem c4_pct_unclamped :
    as_pct "" = some 0 ∧
    (∀ s v, s ≠ "" → parseFloat (pyRStrip s ['%']) = some v →
        as_pct s = some (v/100) ∧ (0 ≤ v/100 ∧ v/100 ≤ 1 ↔ 0 ≤ v ∧ v ≤ 100)) ∧
    (∀ row P, mkPatch row = some P →
        as_pct (row.getD 7 "") = some P.oscillator1.mixPct ∧
        as_pct (row.getD 19 "") = some P.noise ∧
        as_pct (row.getD 30 "") = some P.filterType24db.cutoffPct ∧
        as_pct (row.getD 32 "") = some P.filterType12db.cutoffPct ∧
        as_pct (row.getD 33 "") = some P.filterResonance ∧
        as_pct (row.getD 34 "") = some P.filterEnvelopeWeight ∧
        as_pct (row.getD 37 "") = some P.filterEnvelope.sustain) := by
  refine ⟨rfl, fun s v hs hv => ⟨by simp [as_pct, hs, hv], ?_⟩, fun row P h => ?_⟩
  · constructor
    · intro hh
      exact ⟨by linarith [hh.1], by linarith [hh.2]⟩
    · intro hh
      exact ⟨by linarith [hh.1], by linarith [hh.2]⟩
  · obtain ⟨ho1, _, hns, _, _, hf24, hf12, hrs, hfw, hfe, _, _, _⟩ := mkPatch_parts row P h
    exact ⟨(mkOsc_eq_some _ _ _ _ _ _ _ _ ho1).2.2.1, hns,
      (mkFilterType_eq_some _ _ _ hf24).2, (mkFilterType_eq_some _ _ _ hf12).2,
      hrs, hfw, (mkEnvelope_eq_some _ _ _ _ _ _ _ hfe).2.2.1⟩

theorem c4_pct_unclamped_witness :
    (as_pct "200%" = some ((200:ℚ)/100) ∧
      (0 ≤ (200:ℚ)/100 ∧ (200:ℚ)/100 ≤ 1 ↔ 0 ≤ (200:ℚ) ∧ (200:ℚ) ≤ 100)) ∧
    as_pct ([].getD 19 "") = some emptyPatch.noise :=
  ⟨c4_pct_unclamped.2.1 "200%" 200 (by decide) rfl,
   (c4_pct_unclamped.2.2 [] emptyPatch rfl).2.1⟩

/-- C5: the envelope-stage decoder returns 0.0 on the empty cell, the ceiling
on the literal `max`, and the parsed float on any other cell; within an
assembled patch the filter-envelope decay stage is decoded with ceiling 0.0
and the filter-envelope release stage with ceiling 30.0. -/
theorem c5_envelope_stage :
    (∀ C, as_envelope "" C = some (some 0)) ∧
    (∀ C, as_envelope "max" C = some C) ∧
    (∀ s C v, s ≠ "" → s ≠ "max" → parseFloat s = some v →
        as_envelope s C = some (some v)) ∧
    (∀ row P, mkPatch row = some P →
        as_envelope (row.getD 36 "") (some 0) = some P.filterEnvelope.decay ∧
        as_envelope (row.getD 38 "") (some 30) = some P.filterEnvelope.release) := by
  refine ⟨fun C => rfl, fun C => rfl, fun s C v h1 h2 h3 => ?_, fun row P h => ?_⟩
  · simp [as_envelope, h1, h2, h3]
  · obtain ⟨_, _, _, _, _, _, _, _, _, hfe, _, _, _⟩ := mkPatch_parts row P h
    exact ⟨(mkEnvelope_eq_some _ _ _ _ _ _ _ hfe).2.1,
      (mkEnvelope_eq_some _ _ _ _ _ _ _ hfe).2.2.2⟩

theorem c5_envelope_stage_witness :
    as_envelope "" (some 5) = some (some 0) ∧
    as_envelope "max" (some 30) = some (some 30) ∧
    as_envelope "3" none = some (some 3) ∧
    as_envelope ([].getD 36 "") (some 0) = some emptyPatch.filterEnvelope.decay :=
  ⟨c5_envelope_stage.1 (some 5), c5_envelope_stage.2.1 (some 30),
   c5_envelope_stage.2.2.1 "3" none 3 (by decide) (by decide) rfl,
   (c5_envelope_stage.2.2.2 [] emptyPatch rfl).1⟩

/-- C6: every field decoder applied to the empty cell returns its documented
zero or absence value rather than failing: 0.0 for percentage, cents, float
and envelope stages, 0 for integer, false for boolean, and the absence marker
for depth, waveform and routing; polyphony and glide also succeed. -/
theorem c6_empty_cell_defaults :
    as_pct "" = some 0 ∧ as_cents "" = some 0 ∧ as_int "" = some 0 ∧
    as_bool (some "") = false ∧ as_float "" = some 0 ∧
    (∀ C, as_envelope "" C = some (some 0)) ∧
    as_depth (some "") (some "") = some Depth.dnone ∧
    as_waveform "" = some Waveform.wnone ∧
    as_routing "" = Routing.rnone ∧
    as_polyphony "" = Polyphony.named "" ∧
    as_glide "" = some 0 :=
  ⟨rfl, rfl, rfl, rfl, rfl, fun _ => rfl, rfl, rfl, rfl, rfl, rfl⟩

theorem c6_empty_cell_defaults_witness :
    as_envelope "" (some 5) = some (some 0) :=
  c6_empty_cell_defaults.2.2.2.2.2.1 (some 5)

/-- C7: tune decoding is exclusive — a nonempty note cell makes the result a
function of the note cell alone (the offset cells are not consulted); with an
empty note cell, all-zero offsets collapse to the no-transposition marker and
any other decoded offsets yield the offset triple. -/
theorem c7_tune_exclusive :
    (∀ o s c o2 s2 c2 n, n ≠ "" → as_tune o s c n = as_tune o2 s2 c2 n) ∧
    (∀ o s c n, n ≠ "" → as_tune o s c n = (parseInt n).map Tune.note) ∧
    (∀ o s c, as_int o = some 0 → as_int s = some 0 → as_int c = some 0 →
        as_tune o s c "" = some Tune.noTranspose) ∧
    (∀ o s c ov sv cv, as_int o = some ov → as_int s = some sv → as_int c = some cv →
        ¬(ov = 0 ∧ sv = 0 ∧ cv = 0) → as_tune o s c "" = some (Tune.osc ov sv cv)) := by
  have key : ∀ o s c n, n ≠ "" → as_tune o s c n = (parseInt n).map Tune.note := by
    intro o s c n hn
    simp [as_tune, hn]
  refine ⟨fun o s c o2 s2 c2 n hn => (key o s c n hn).trans (key o2 s2 c2 n hn).symm,
    key, fun o s c ho hs hc => ?_, fun o s c ov sv cv ho hs hc hnz => ?_⟩
  · simp [as_tune, ho, hs, hc]
  · simp [as_tune, ho, hs, hc, hnz]

theorem c7_tune_exclusive_witness :
    as_tune "1" "2" "3" "60" = as_tune "9" "9" "9" "60" ∧
    as_tune "1" "2" "3" "60" = (parseInt "60").map Tune.note ∧
    as_tune "" "" "" "" = some Tune.noTranspose ∧
    as_tune "1" "2" "3" "" = some (Tune.osc 1 2 3) :=
  ⟨c7_tune_exclusive.1 "1" "2" "3" "9" "9" "9" "60" (by decide),
   c7_tune_exclusive.2.1 "1" "2" "3" "60" (by decide),
   c7_tune_exclusive.2.2.1 "" "" "" rfl rfl rfl,
   c7_tune_exclusive.2.2.2 "1" "2" "3" 1 2 3 rfl rfl rfl (by norm_num)⟩

/-- C8: counterexample — `undecodableRow` is neither an annotation row nor
the excluded row id `103`, yet it yields no patch: its mix cell fails float
parsing, so the row loop raises and aborts instead of producing a Patch. -/
theorem c8_counterexample :
    pyStartsWith (undecodableRow.getD 0 "") "Exception" = false ∧
    undecodableRow.getD 1 "" ≠ "103" ∧
    mkPatch undecodableRow = none ∧
    processRow undecodableRow = RowResult.error :=
  ⟨rfl, by decide, rfl, rfl⟩

/-- C8 (amended): annotation rows and the hard-coded row id `103` are
silently skipped, producing no patch and no error; every other row yields
exactly one patch provided each of its cells decodes, and an undecodable cell
instead aborts the batch with an error. -/
theorem c8_row_exclusion :
    (∀ row, pyStartsWith (row.getD 0 "") "Exception" = true →
        processRow row = RowResult.skipped) ∧
    (∀ row, row.getD 1 "" = "103" → processRow row = RowResult.skipped) ∧
    (∀ row P, pyStartsWith (row.getD 0 "") "Exception" = false →
        row.getD 1 "" ≠ "103" → mkPatch row = some P →
        processRow row = RowResult.patch P) := by
  refine ⟨fun row h => ?_, fun row h => ?_, fun row P h1 h2 h3 => ?_⟩
  · unfold processRow
    rw [h]
    rfl
  · unfold processRow
    by_cases hA : pyStartsWith (row.getD 0 "") "Exception" = true
    · rw [hA]
      rfl
    · rw [Bool.not_eq_true] at hA
      rw [hA, h]
      rfl
  · unfold processRow
    rw [h1, if_neg (by simp), if_neg h2, h3]

theorem c8_row_exclusion_witness :
    processRow ["Exception: annotation"] = RowResult.skipped ∧
    processRow ["x", "103"] = RowResult.skipped ∧
    processRow [] = RowResult.patch emptyPatch :=
  ⟨c8_row_exclusion.1 ["Exception: annotation"] rfl,
   c8_row_exclusion.2.1 ["x", "103"] rfl,
   c8_row_exclusion.2.2 [] emptyPatch rfl (by decide) rfl⟩

end Welsh

namespace KitchenSink

theorem get_float_param_fst (st : ℚ) :
    (get_float_param st).1 = (pyTrunc (st * 100) : ℚ) / 100 := rfl

theorem get_float_param_snd (st : ℚ) :
    (get_float_param st).2 = if st + 1/100 > 9/10 then 1/100 else st + 1/100 := rfl

theorem get_float_param_fst_exact (k : Nat) :
    (get_float_param ((k : ℚ) / 100)).1 = (k : ℚ) / 100 := by
  rw [get_float_param_fst]
  have h1 : (k : ℚ) / 100 * 100 = (k : ℚ) := by field_simp
  rw [h1, pyTrunc, if_pos (by positivity), Int.floor_natCast]
  norm_num

theorem floatParamAfter_bounds (n : Nat) :
    ∃ k : Nat, 1 ≤ k ∧ k ≤ 90 ∧ floatParamAfter n = (k : ℚ) / 100 := by
  induction n with
  | zero => exact ⟨1, le_refl 1, by norm_num, by norm_num [floatParamAfter]⟩
  | succ n ih =>
    obtain ⟨k, hk1, hk90, hfp⟩ := ih
    have hstep : floatParamAfter (n + 1) =
        if (k : ℚ) / 100 + 1/100 > 9/10 then 1/100 else (k : ℚ) / 100 + 1/100 := by
      show (get_float_param (floatParamAfter n)).2 = _
      rw [hfp, get_float_param_snd]
    by_cases h : (k : ℚ) / 100 + 1/100 > 9/10
    · refine ⟨1, le_refl 1, by norm_num, ?_⟩
      rw [hstep, if_pos h]
      norm_num
    · refine ⟨k + 1, by omega, ?_, ?_⟩
      · rw [not_lt] at h
        have hq : (k : ℚ) + 1 ≤ 90 := by linarith
        exact_mod_cast hq
      · rw [hstep, if_neg h]
        push_cast
        ring

/-- C10: the cycling float-parameter cursor starts at 0.01, advances by 0.01
per call and wraps back to 0.01 whenever it would exceed 0.9; consequently
the cursor always lies in the half-open interval (0, 0.9], and every call to
`get_float_param` returns its cursor value, a figure between 0.01 and 0.9
that is never zero. -/
theorem c10_float_param_bounds (n : Nat) :
    (1/100 : ℚ) ≤ (get_float_param (floatParamAfter n)).1 ∧
    (get_float_param (floatParamAfter n)).1 ≤ 9/10 ∧
    (get_float_param (floatParamAfter n)).1 ≠ 0 ∧
    0 < floatParamAfter n ∧ floatParamAfter n ≤ 9/10 ∧
    (get_float_param (floatParamAfter n)).2 =
      (if floatParamAfter n + 1/100 > 9/10 then 1/100 else floatParamAfter n + 1/100) ∧
    (get_float_param (floatParamAfter n)).1 = floatParamAfter n := by
  obtain ⟨k, hk1, hk90, hfp⟩ := floatParamAfter_bounds n
  have hkQ1 : (1 : ℚ) ≤ (k : ℚ) := by exact_mod_cast hk1
  have hkQ90 : (k : ℚ) ≤ 90 := by exact_mod_cast hk90
  rw [hfp, get_float_param_fst_exact k]
  refine ⟨by linarith, by linarith, ne_of_gt (by linarith), by linarith, by linarith,
    get_float_param_snd _, rfl⟩

theorem c10_float_param_bounds_witness :
    (1/100 : ℚ) ≤ (get_float_param (floatParamAfter 0)).1 ∧
    (get_float_param (floatParamAfter 0)).1 ≤ 9/10 ∧
    (get_float_param (floatParamAfter 0)).1 ≠ 0 ∧
    0 < floatParamAfter 0 ∧ floatParamAfter 0 ≤ 9/10 ∧
    (get_float_param (floatParamAfter 0)).2 =
      (if floatParamAfter 0 + 1/100 > 9/10 then 1/100 else floatParamAfter 0 + 1/100) ∧
    (get_float_param (floatParamAfter 0)).1 = floatParamAfter 0 :=
  c10_float_param_bounds 0

end KitchenSink
